import Mathlib

/-!
Verification model of the QApt `Backend` facade (libqapt, `src/backend.h`).

The repository supplies only the interface declaration of the `Backend`
class; the behaviour of each member is documented in the header and in the
specification. The definitions below are a shallow embedding of that
documented behaviour: the data the facade forwards (packages, groups,
marks, worker notifications) and the operations it declares (queries,
mark operations, worker-delegated operations, notification relay).
-/

namespace LibQApt

/-- Modelled from the spec: the `QVariantMap` details payload attached to
worker notifications. The concrete Qt type is external to the repository;
we model it as an association list of string keys to string values. -/
abbrev VariantMap := List (String × String)

/-- Modelled from the spec: a notification arriving at the Backend from the
privileged worker process. The worker-side IPC machinery is external to the
repository; only the four coded notification shapes the Backend relays
(error, warning, question, generic event) are modelled. -/
inductive WorkerNotification
  | error (code : Nat) (details : VariantMap)
  | warning (code : Nat) (details : VariantMap)
  | question (code : Nat) (details : VariantMap)
  | event (code : Nat)
deriving DecidableEq, Repr

/-- Modelled from the spec: the outward Qt signals declared by `Backend`
in `backend.h` (errorOccurred, warningOccurred, questionOccurred,
packageChanged, workerEvent, downloadProgress, downloadMessage,
commitProgress). -/
inductive Signal
  | errorOccurred (code : Nat) (details : VariantMap)
  | warningOccurred (code : Nat) (details : VariantMap)
  | questionOccurred (code : Nat) (details : VariantMap)
  | packageChanged
  | workerEvent (code : Nat)
  | downloadProgress (percentage speed eta : Int)
  | downloadMessage (flag : Int) (message : String)
  | commitProgress (status : String) (percentage : Int)
deriving DecidableEq, Repr

/-- Modelled from the spec: a package record as seen through the facade.
The `Package` class itself lives in the wrapped library (not in the
repository); the model keeps the fields the Backend's documented behaviour
depends on: the name, the version (0 meaning a no-longer-existing package
lingering in the status cache), the installed flag, the upgradeable flag,
the state-flag bitmask, the group (section) name, and the names of new
packages an upgrade of this package would require installing. -/
structure Package where
  name : String
  version : Nat
  installed : Bool
  upgradeable : Bool
  state : Nat
  group : String
  requiresNew : List String
deriving DecidableEq, Repr

/-- Modelled from the spec: a package group, identified by name
(`group.h` is not part of the supplied sources). -/
structure Group where
  name : String
deriving DecidableEq, Repr

/-- Modelled from the spec: the pending-change mark a package can carry
(marked for install, removal, or upgrade, or unmarked). -/
inductive MarkState
  | none
  | install
  | remove
  | upgrade
deriving DecidableEq, Repr

/-- Pending-change marks, keyed by package name; a later entry shadows an
earlier one for the same name. -/
abbrev Marks := List (String × MarkState)

/-- Look up the pending-change mark of a package name (unmarked when no
entry is present). -/
def getMark : Marks → String → MarkState
  | [], _ => MarkState.none
  | q :: rest, x => if q.1 = x then q.2 else getMark rest x

/-- Record a pending-change mark for a package name, shadowing any
previous mark for that name. -/
def setMark (ms : Marks) (name : String) (m : MarkState) : Marks :=
  (name, m) :: ms

/-- Modelled from the spec: the observable state of the Backend facade.
The implementation file `backend.cpp` is not in the repository; the state
is assembled from the facade's documented surface: whether `init()` has
been called, the underlying Apt database, the in-memory package cache and
group listing repopulated from it, the pending-change marks, and the
staleness flag of the xapian search index. -/
structure BackendState where
  initialized : Bool
  aptDb : List Package
  packages : List Package
  groups : List Group
  marks : Marks
  xapianStale : Bool
deriving DecidableEq, Repr

/-- Modelled from the spec: the messages the facade sends to the external
privileged worker over the IPC bus (commit the pending changes, update the
source cache, cancel the in-flight download, answer a question). -/
inductive WorkerMsg
  | commitPkgs (marks : Marks)
  | updateCacheMsg
  | cancel
  | answer (response : VariantMap)
deriving DecidableEq, Repr

/-- Modelled from the spec: the worker-side operation currently in flight
(a cache update or a commit), driving a download. -/
inductive InFlightOp
  | updating
  | committing
deriving DecidableEq, Repr

/-- Modelled from the spec: the worker's reaction to a message from the
facade. An update or commit message starts the corresponding in-flight
operation, a cancel message aborts whatever is in flight, and an answer
leaves the in-flight operation as it is. -/
def workerHandle : Option InFlightOp → WorkerMsg → Option InFlightOp
  | _, WorkerMsg.updateCacheMsg => some InFlightOp.updating
  | _, WorkerMsg.commitPkgs _ => some InFlightOp.committing
  | w, WorkerMsg.answer _ => w
  | _, WorkerMsg.cancel => Option.none

/-- True exactly for the worker messages that start a download
(those sent by `updateCache()` and `commitChanges()`). -/
def startsDownload : WorkerMsg → Bool
  | WorkerMsg.updateCacheMsg => true
  | WorkerMsg.commitPkgs _ => true
  | _ => false

/-- Modelled from the spec: the private relay slots
(`emitErrorOccurred`, `emitWarningOccurred`, `emitWorkerQuestionOccurred`,
`emitWorkerEvent` in `backend.h`) through which the Backend re-emits a
worker notification as the corresponding outward signal, carrying the code
and the details payload verbatim. The facade state is untouched. -/
def receiveNotification (s : BackendState) :
    WorkerNotification → BackendState × List Signal
  | WorkerNotification.error code details =>
      (s, [Signal.errorOccurred code details])
  | WorkerNotification.warning code details =>
      (s, [Signal.warningOccurred code details])
  | WorkerNotification.question code details =>
      (s, [Signal.questionOccurred code details])
  | WorkerNotification.event code =>
      (s, [Signal.workerEvent code])

/-- The outward signal corresponding to a worker notification. -/
def forwardSignal : WorkerNotification → Signal
  | WorkerNotification.error code details => Signal.errorOccurred code details
  | WorkerNotification.warning code details => Signal.warningOccurred code details
  | WorkerNotification.question code details => Signal.questionOccurred code details
  | WorkerNotification.event code => Signal.workerEvent code

/-- True exactly for the signals the spec lists as worker-originated
notifications re-emitted by the facade. -/
def isWorkerOriginated : Signal → Bool
  | Signal.errorOccurred _ _ => true
  | Signal.warningOccurred _ _ => true
  | Signal.questionOccurred _ _ => true
  | Signal.workerEvent _ => true
  | Signal.downloadProgress _ _ _ => true
  | Signal.downloadMessage _ _ => true
  | Signal.commitProgress _ _ => true
  | Signal.packageChanged => false

/-- Modelled from the spec: the `packageChanged(Package*)` slot through
which a `Package` tells the Backend its state changed; the Backend reacts
by emitting the `packageChanged()` signal. -/
def packageChangedSlot (s : BackendState) (_p : Package) :
    BackendState × List Signal :=
  (s, [Signal.packageChanged])

/-- Modelled from the spec: `package(name)` looks a package up by name in
the in-memory cache. The library has no null package to return for an
unknown name; the `none` result models that nothing is returned there
(documented undefined behaviour, a crash on access). -/
def package (s : BackendState) (name : String) : Option Package :=
  s.packages.find? (fun p => p.name = name)

/-- Modelled from the spec: `group(name)` looks a group up by name; as with
`package(name)` there is no null group, and `none` models the undefined
unknown-name case. -/
def group (s : BackendState) (name : String) : Option Group :=
  s.groups.find? (fun g => g.name = name)

/-- Modelled from the spec: a package state matches a set of state flags
when the bitmasks intersect. -/
def stateMatches (p : Package) (states : Nat) : Bool :=
  p.state &&& states != 0

/-- Modelled from the spec: the counting loop of `packageCount()` — walk
the cache and count every package, discarding the no-longer-existing
packages that linger in the status cache with a version of 0. -/
def packageCountLoop : List Package → Nat → Nat
  | [], acc => acc
  | p :: rest, acc =>
      packageCountLoop rest (if p.version ≠ 0 then acc + 1 else acc)

/-- Total number of packages in the Apt database, version-0 entries
discarded. -/
def packageCount (s : BackendState) : Nat :=
  packageCountLoop s.packages 0

/-- Modelled from the spec: the counting loop of `packageCount(states)` —
count the packages whose state matches the given flags, again discarding
version-0 entries. -/
def packageCountStatesLoop (states : Nat) : List Package → Nat → Nat
  | [], acc => acc
  | p :: rest, acc =>
      packageCountStatesLoop states rest
        (if p.version ≠ 0 ∧ stateMatches p states then acc + 1 else acc)

/-- Number of packages matching the given state flags, version-0 entries
discarded. -/
def packageCountStates (s : BackendState) (states : Nat) : Nat :=
  packageCountStatesLoop states s.packages 0

/-- Modelled from the spec: `availablePackages()` — all packages,
excluding the now-nonexistent ones with a version of 0. -/
def availablePackages (s : BackendState) : List Package :=
  s.packages.filter (fun p => p.version != 0)

/-- Modelled from the spec: `upgradeablePackages()` — all upgradeable
packages in the database. -/
def upgradeablePackages (s : BackendState) : List Package :=
  s.packages.filter (fun p => p.upgradeable)

/-- Modelled from the spec: `markedPackages()` — all packages currently
marked for a pending change. -/
def markedPackages (s : BackendState) : List Package :=
  s.packages.filter (fun p => getMark s.marks p.name != MarkState.none)

/-- Whether the character list `needle` starts the character list `hay`. -/
def startsWith : List Char → List Char → Bool
  | [], _ => true
  | _ :: _, [] => false
  | a :: as, b :: bs => a = b && startsWith as bs

/-- Whether the character list `needle` occurs inside `hay`. -/
def containsChars (needle : List Char) : List Char → Bool
  | [] => needle.isEmpty
  | b :: bs => startsWith needle (b :: bs) || containsChars needle bs

/-- Modelled from the spec: `search(searchString)` — the packages of the
internal list matching the search string (matching itself lives in the
external xapian index; the model matches on the package name). -/
def search (s : BackendState) (searchString : String) : List Package :=
  s.packages.filter (fun p => containsChars searchString.toList p.name.toList)

/-- Modelled from the spec: `availableGroups()` — the group listing held
by the facade. -/
def availableGroups (s : BackendState) : List Group :=
  s.groups

/-- Modelled from the spec: `xapianIndexNeedsUpdate()` — whether the
search index is stale. -/
def xapianIndexNeedsUpdate (s : BackendState) : Bool :=
  s.xapianStale

/-- The group listing derived from a package database. -/
def groupsOfDb (db : List Package) : List Group :=
  (db.map (fun p => Group.mk p.group)).dedup

/-- Record the same mark for every name in a list. -/
def markAllWith (ms : Marks) (names : List String) (m : MarkState) : Marks :=
  names.foldl (fun acc n => setMark acc n m) ms

/-- Whether some package of the cache with the given name is installed. -/
def isInstalledName (s : BackendState) (n : String) : Bool :=
  s.packages.any (fun p => p.name = n && p.installed)

/-- The names of the upgradeable packages of the cache. -/
def upgradeableNames (s : BackendState) : List String :=
  (s.packages.filter (fun p => p.upgradeable)).map (fun p => p.name)

/-- Modelled from the spec: the marks after `markPackagesForUpgrade()` —
every upgradeable package is marked for upgrading, and no new package is
marked for installation. -/
def upgradeMarks (s : BackendState) : Marks :=
  markAllWith s.marks (upgradeableNames s) MarkState.upgrade

/-- The not-yet-installed packages some upgradeable package's update
requires: the new packages a distribution upgrade would pull in. -/
def distNewNames (s : BackendState) : List String :=
  (((s.packages.filter (fun p => p.upgradeable)).map
      (fun p => p.requiresNew)).flatten).filter
    (fun n => !isInstalledName s n)

/-- Modelled from the spec: the marks after `markPackagesForDistUpgrade()`
— every upgradeable package is marked for upgrading, and the new packages
required by those updates are additionally marked for installation. -/
def distUpgradeMarks (s : BackendState) : Marks :=
  markAllWith (markAllWith s.marks (distNewNames s) MarkState.install)
    (upgradeableNames s) MarkState.upgrade

/-- Modelled from the spec: the operations callable on the Backend facade
(the public member functions and slots declared in `backend.h`). -/
inductive Op
  | init
  | reloadCache
  | packageQ (name : String)
  | packageCountQ
  | packageCountStatesQ (states : Nat)
  | availablePackagesQ
  | upgradeablePackagesQ
  | markedPackagesQ
  | searchQ (searchString : String)
  | groupQ (name : String)
  | availableGroupsQ
  | xapianIndexNeedsUpdateQ
  | markPackagesForUpgradeOp
  | markPackagesForDistUpgradeOp
  | markPackageForInstallOp (name : String)
  | markPackageForRemovalOp (name : String)
  | commitChangesOp
  | updateCacheOp
  | cancelDownloadOp
  | answerWorkerQuestionOp (response : VariantMap)
deriving DecidableEq, Repr

/-- True exactly for the query surface operations (lookup-by-name, counts,
listings, search, index-staleness check). -/
def isQueryOp : Op → Bool
  | Op.packageQ _ => true
  | Op.packageCountQ => true
  | Op.packageCountStatesQ _ => true
  | Op.availablePackagesQ => true
  | Op.upgradeablePackagesQ => true
  | Op.markedPackagesQ => true
  | Op.searchQ _ => true
  | Op.groupQ _ => true
  | Op.availableGroupsQ => true
  | Op.xapianIndexNeedsUpdateQ => true
  | _ => false

/-- True exactly for the four mark operations. -/
def isMarkOp : Op → Bool
  | Op.markPackagesForUpgradeOp => true
  | Op.markPackagesForDistUpgradeOp => true
  | Op.markPackageForInstallOp _ => true
  | Op.markPackageForRemovalOp _ => true
  | _ => false

/-- Modelled from the spec: the effect of one facade operation on the
facade state, together with the messages sent to the worker. Queries are
synchronous and read-only; mark operations are local, synchronous changes
of the pending-change marks; commit, cache update, cancel and
question-answer are delegated to the worker over the bus; `reloadCache`
repopulates the cache, package list and group list from the underlying
database. -/
def applyOp (s : BackendState) : Op → BackendState × List WorkerMsg
  | Op.init => ({ s with initialized := true }, [])
  | Op.reloadCache =>
      ({ s with packages := s.aptDb, groups := groupsOfDb s.aptDb }, [])
  | Op.packageQ _ => (s, [])
  | Op.packageCountQ => (s, [])
  | Op.packageCountStatesQ _ => (s, [])
  | Op.availablePackagesQ => (s, [])
  | Op.upgradeablePackagesQ => (s, [])
  | Op.markedPackagesQ => (s, [])
  | Op.searchQ _ => (s, [])
  | Op.groupQ _ => (s, [])
  | Op.availableGroupsQ => (s, [])
  | Op.xapianIndexNeedsUpdateQ => (s, [])
  | Op.markPackagesForUpgradeOp => ({ s with marks := upgradeMarks s }, [])
  | Op.markPackagesForDistUpgradeOp =>
      ({ s with marks := distUpgradeMarks s }, [])
  | Op.markPackageForInstallOp name =>
      ({ s with marks := setMark s.marks name MarkState.install }, [])
  | Op.markPackageForRemovalOp name =>
      ({ s with marks := setMark s.marks name MarkState.remove }, [])
  | Op.commitChangesOp => (s, [WorkerMsg.commitPkgs s.marks])
  | Op.updateCacheOp => (s, [WorkerMsg.updateCacheMsg])
  | Op.cancelDownloadOp => (s, [WorkerMsg.cancel])
  | Op.answerWorkerQuestionOp response => (s, [WorkerMsg.answer response])

/-- Modelled from the spec: running a call sequence against the contract
that `init()` must be called exactly once before any other operation.
Calling any other operation before `init()`, or calling `init()` a second
time, leaves the behaviour undefined (`none`). -/
def runOps : BackendState → List Op → Option BackendState
  | s, [] => some s
  | s, op :: rest =>
      if op = Op.init then
        if s.initialized then Option.none
        else runOps { s with initialized := true } rest
      else
        if s.initialized then runOps (applyOp s op).1 rest
        else Option.none

/-- A concrete package used to exercise the theorems: installed and
upgradeable, its update requiring one new package. -/
def vimPkg : Package :=
  ⟨"vim", 2, true, true, 3, "editors", ["vim-runtime"]⟩

/-- A concrete package used to exercise the theorems: installed, not
upgradeable. -/
def gccPkg : Package :=
  ⟨"gcc", 5, true, false, 1, "devel", []⟩

/-- A concrete package used to exercise the theorems: a no-longer-existing
entry lingering in the status cache with version 0. -/
def stalePkg : Package :=
  ⟨"oldlib", 0, false, false, 0, "libs", []⟩

/-- A concrete, initialized backend state used to exercise the theorems. -/
def demoState : BackendState :=
  { initialized := true
    aptDb := [vimPkg, gccPkg, stalePkg]
    packages := [vimPkg, gccPkg, stalePkg]
    groups := [⟨"editors"⟩, ⟨"devel"⟩, ⟨"libs"⟩]
    marks := []
    xapianStale := false }

/-- The same concrete backend state before `init()` has been called. -/
def freshState : BackendState :=
  { demoState with initialized := false }

/-! Helper lemmas. -/

/-- The mark left on `x` by marking every name of a list with `m`:
`m` when `x` is in the list, the previous mark otherwise. -/
theorem getMark_markAllWith (names : List String) :
    ∀ (ms : Marks) (m : MarkState) (x : String),
      getMark (markAllWith ms names m) x
        = if x ∈ names then m else getMark ms x := by
  induction names with
  | nil => intro ms m x; simp [markAllWith]
  | cons n ns ih =>
    intro ms m x
    have hstep : markAllWith ms (n :: ns) m = markAllWith (setMark ms n m) ns m := rfl
    rw [hstep, ih]
    by_cases hx : x ∈ ns
    · simp [hx]
    · by_cases hn : n = x
      · simp [hx, hn, setMark, getMark]
      · simp [hx, hn, Ne.symm hn, setMark, getMark]

/-- The counting loop of `packageCount()` counts exactly the packages with
a nonzero version, on top of the accumulator. -/
theorem packageCountLoop_eq (l : List Package) :
    ∀ acc : Nat,
      packageCountLoop l acc
        = acc + (l.filter (fun p => p.version != 0)).length := by
  induction l with
  | nil => intro acc; simp [packageCountLoop]
  | cons p rest ih =>
    intro acc
    by_cases h : p.version = 0
    · simp [packageCountLoop, h, ih]
    · simp [packageCountLoop, h, ih]
      omega

/-- The counting loop of `packageCount(states)` counts exactly the
packages with a nonzero version whose state matches the flags. -/
theorem packageCountStatesLoop_eq (states : Nat) (l : List Package) :
    ∀ acc : Nat,
      packageCountStatesLoop states l acc
        = acc + (l.filter
            (fun p => p.version != 0 && stateMatches p states)).length := by
  induction l with
  | nil => intro acc; simp [packageCountStatesLoop]
  | cons p rest ih =>
    intro acc
    by_cases h1 : p.version = 0
    · simp [packageCountStatesLoop, h1, ih]
    · by_cases h2 : stateMatches p states
      · simp [packageCountStatesLoop, h1, h2, ih]
        omega
      · simp [packageCountStatesLoop, h1, h2, ih]

/-- No facade operation other than `init()` changes the initialized
flag. -/
theorem applyOp_initialized (s : BackendState) (op : Op) (h : op ≠ Op.init) :
    (applyOp s op).1.initialized = s.initialized := by
  cases op <;> first | rfl | exact absurd rfl h

/-- Once the backend is initialized, a call sequence has defined behaviour
exactly when it never calls `init()` again. -/
theorem runOps_isSome_of_initialized (ops : List Op) :
    ∀ s : BackendState, s.initialized = true →
      ((runOps s ops).isSome = true ↔ Op.init ∉ ops) := by
  induction ops with
  | nil => intro s _; simp [runOps]
  | cons op rest ih =>
    intro s h
    by_cases hop : op = Op.init
    · subst hop; simp [runOps, h]
    · have h2 : (applyOp s op).1.initialized = true := by
        rw [applyOp_initialized s op hop, h]
      simp [runOps, hop, h, ih _ h2, Ne.symm hop]

/-! The claims. -/

/-- C1: every worker notification — error, warning or question code with a
details map, or an event code — is re-emitted by the Backend as the
corresponding outward signal (errorOccurred, warningOccurred,
questionOccurred, workerEvent) carrying the identical code and the details
payload unchanged, with no filtering or transformation and no state
change. -/
theorem notifications_forwarded_verbatim (s : BackendState) (code : Nat)
    (details : VariantMap) :
    receiveNotification s (WorkerNotification.error code details)
      = (s, [Signal.errorOccurred code details]) ∧
    receiveNotification s (WorkerNotification.warning code details)
      = (s, [Signal.warningOccurred code details]) ∧
    receiveNotification s (WorkerNotification.question code details)
      = (s, [Signal.questionOccurred code details]) ∧
    receiveNotification s (WorkerNotification.event code)
      = (s, [Signal.workerEvent code]) ∧
    ∀ n, receiveNotification s n = (s, [forwardSignal n]) := by
  refine ⟨rfl, rfl, rfl, rfl, ?_⟩
  intro n
  cases n <;> rfl

/-- C2: starting from an uninitialized backend, a call sequence has
defined behaviour exactly when it is empty or begins with `init()` and
never calls `init()` again: `init()` must be the first operation and be
invoked exactly once. -/
theorem init_exactly_once_first (s0 : BackendState)
    (h : s0.initialized = false) (ops : List Op) :
    (runOps s0 ops).isSome = true ↔
      (ops = [] ∨ ∃ rest, ops = Op.init :: rest ∧ Op.init ∉ rest) := by
  cases ops with
  | nil => simp [runOps]
  | cons op rest =>
    by_cases hop : op = Op.init
    · subst hop
      have h1 : ({ s0 with initialized := true } : BackendState).initialized
          = true := rfl
      have h2 := runOps_isSome_of_initialized rest _ h1
      simp [runOps, h, h2]
    · simp [runOps, hop, h]

/-- C2 witness: the sequence `[init, packageCount]` from the fresh state
has defined behaviour. -/
theorem init_exactly_once_first_witness :
    (runOps freshState [Op.init, Op.packageCountQ]).isSome = true :=
  (init_exactly_once_first freshState rfl [Op.init, Op.packageCountQ]).mpr
    (Or.inr ⟨[Op.packageCountQ], rfl, by decide⟩)

/-- C3: when a package (respectively group) with the given name exists in
the database, `package(name)` (respectively `group(name)`) returns that
entry; when none exists, the lookup returns nothing at all — there is no
null or empty representation, so the caller must pre-validate existence
and no error is reported. -/
theorem lookup_requires_existence (s : BackendState) (name : String) :
    ((∃ p, p ∈ s.packages ∧ p.name = name) →
      ∃ p, package s name = some p ∧ p ∈ s.packages ∧ p.name = name) ∧
    ((∀ p ∈ s.packages, p.name ≠ name) → package s name = Option.none) ∧
    ((∃ g, g ∈ s.groups ∧ g.name = name) →
      ∃ g, group s name = some g ∧ g ∈ s.groups ∧ g.name = name) ∧
    ((∀ g ∈ s.groups, g.name ≠ name) → group s name = Option.none) := by
  refine ⟨?_, ?_, ?_, ?_⟩
  · rintro ⟨p, hp, hn⟩
    cases hfind : s.packages.find? (fun q => q.name = name) with
    | none =>
      rw [List.find?_eq_none] at hfind
      exact absurd (by simp [hn]) (hfind p hp)
    | some q =>
      refine ⟨q, ?_, List.mem_of_find?_eq_some hfind, ?_⟩
      · simpa [package] using hfind
      · simpa using List.find?_some hfind
  · intro hnone
    rw [package, List.find?_eq_none]
    intro q hq
    simpa using hnone q hq
  · rintro ⟨g, hg, hn⟩
    cases hfind : s.groups.find? (fun q => q.name = name) with
    | none =>
      rw [List.find?_eq_none] at hfind
      exact absurd (by simp [hn]) (hfind g hg)
    | some q =>
      refine ⟨q, ?_, List.mem_of_find?_eq_some hfind, ?_⟩
      · simpa [group] using hfind
      · simpa using List.find?_some hfind
  · intro hnone
    rw [group, List.find?_eq_none]
    intro q hq
    simpa using hnone q hq

/-- C3 witness: in the demo state the package named vim exists and is
returned by the lookup. -/
theorem lookup_requires_existence_witness :
    ∃ p, package demoState "vim" = some p ∧
      p ∈ demoState.packages ∧ p.name = "vim" :=
  (lookup_requires_existence demoState "vim").1 ⟨vimPkg, by decide, by decide⟩

/-- C4: `packageCount()` counts the packages of the database excluding the
version-0 entries lingering in the status cache, and `packageCount(states)`
counts the packages matching the given state flags, likewise excluding
version-0 entries. -/
theorem packageCount_excludes_version_zero (s : BackendState) (states : Nat) :
    packageCount s = (s.packages.filter (fun p => p.version != 0)).length ∧
    packageCountStates s states
      = (s.packages.filter
          (fun p => p.version != 0 && stateMatches p states)).length := by
  constructor
  · rw [packageCount, packageCountLoop_eq, Nat.zero_add]
  · rw [packageCountStates, packageCountStatesLoop_eq, Nat.zero_add]

/-- C5: every mark operation changes only the pending-change marks: the
underlying Apt database, the package cache, the group listing, the
initialized flag and the index staleness are unchanged, and no message is
sent to the worker (local and synchronous). -/
theorem mark_ops_touch_only_marks (s : BackendState) (op : Op)
    (h : isMarkOp op = true) :
    (applyOp s op).1.aptDb = s.aptDb ∧
    (applyOp s op).1.packages = s.packages ∧
    (applyOp s op).1.groups = s.groups ∧
    (applyOp s op).1.initialized = s.initialized ∧
    (applyOp s op).1.xapianStale = s.xapianStale ∧
    (applyOp s op).2 = [] := by
  cases op <;> simp_all [isMarkOp, applyOp]

/-- C5 witness: marking gcc for install in the demo state leaves the
package cache untouched and sends nothing to the worker. -/
theorem mark_ops_touch_only_marks_witness :
    (applyOp demoState (Op.markPackageForInstallOp "gcc")).1.packages
      = demoState.packages ∧
    (applyOp demoState (Op.markPackageForInstallOp "gcc")).2 = [] :=
  ⟨(mark_ops_touch_only_marks demoState
      (Op.markPackageForInstallOp "gcc") rfl).2.1,
   (mark_ops_touch_only_marks demoState
      (Op.markPackageForInstallOp "gcc") rfl).2.2.2.2.2⟩

/-- C6: after `markPackagesForUpgrade()` every upgradeable package is
marked for upgrading and no install mark appears that was not already
present; after `markPackagesForDistUpgrade()` every upgradeable package is
marked for upgrading and the new packages the updates require are
additionally marked; hence every package marked by the former is also
marked by the latter on the same initial state. -/
theorem upgrade_subset_distUpgrade (s : BackendState) :
    (∀ p, p ∈ s.packages → p.upgradeable = true →
      getMark (upgradeMarks s) p.name = MarkState.upgrade) ∧
    (∀ n, getMark (upgradeMarks s) n = MarkState.install →
      getMark s.marks n = MarkState.install) ∧
    (∀ p, p ∈ s.packages → p.upgradeable = true →
      getMark (distUpgradeMarks s) p.name = MarkState.upgrade) ∧
    (∀ n, n ∈ distNewNames s →
      getMark (distUpgradeMarks s) n ≠ MarkState.none) ∧
    (∀ n, getMark (upgradeMarks s) n ≠ MarkState.none →
      getMark (distUpgradeMarks s) n ≠ MarkState.none) := by
  have hmem : ∀ p, p ∈ s.packages → p.upgradeable = true →
      p.name ∈ upgradeableNames s := by
    intro p hp hu
    simp only [upgradeableNames, List.mem_map]
    exact ⟨p, List.mem_filter.mpr ⟨hp, hu⟩, rfl⟩
  refine ⟨?_, ?_, ?_, ?_, ?_⟩
  · intro p hp hu
    rw [upgradeMarks, getMark_markAllWith, if_pos (hmem p hp hu)]
  · intro n hn
    rw [upgradeMarks, getMark_markAllWith] at hn
    by_cases hmem2 : n ∈ upgradeableNames s
    · rw [if_pos hmem2] at hn
      exact absurd hn (by simp)
    · rwa [if_neg hmem2] at hn
  · intro p hp hu
    rw [distUpgradeMarks, getMark_markAllWith, if_pos (hmem p hp hu)]
  · intro n hn
    rw [distUpgradeMarks, getMark_markAllWith]
    by_cases hmem2 : n ∈ upgradeableNames s
    · rw [if_pos hmem2]; simp
    · rw [if_neg hmem2, getMark_markAllWith, if_pos hn]; simp
  · intro n hn
    rw [upgradeMarks, getMark_markAllWith] at hn
    rw [distUpgradeMarks, getMark_markAllWith]
    by_cases hmem2 : n ∈ upgradeableNames s
    · rw [if_pos hmem2]; simp
    · rw [if_neg hmem2] at hn
      rw [if_neg hmem2, getMark_markAllWith]
      by_cases hnew : n ∈ distNewNames s
      · rw [if_pos hnew]; simp
      · rwa [if_neg hnew]

/-- C6 witness: in the demo state, vim is marked for upgrading by
`markPackagesForUpgrade()` and is still marked after
`markPackagesForDistUpgrade()`. -/
theorem upgrade_subset_distUpgrade_witness :
    getMark (upgradeMarks demoState) "vim" = MarkState.upgrade ∧
    getMark (distUpgradeMarks demoState) "vim" ≠ MarkState.none :=
  ⟨(upgrade_subset_distUpgrade demoState).1 vimPkg (by decide) (by decide),
   (upgrade_subset_distUpgrade demoState).2.2.2.2 "vim" (by decide)⟩

/-- C7: every query operation — lookup by name, counts, listings, search,
index-staleness check — is synchronous and leaves the observable facade
state unchanged: the state after the query is the input state and no
message is sent to the worker. -/
theorem queries_leave_state_unchanged (s : BackendState) (op : Op)
    (h : isQueryOp op = true) :
    applyOp s op = (s, []) := by
  cases op <;> simp_all [isQueryOp, applyOp]

/-- C7 witness: `packageCount()` on the demo state leaves the state
unchanged and involves no worker. -/
theorem queries_leave_state_unchanged_witness :
    applyOp demoState Op.packageCountQ = (demoState, []) :=
  queries_leave_state_unchanged demoState Op.packageCountQ rfl

/-- C8: `cancelDownload()` changes no local facade state and is
implemented by forwarding a cancel message to the worker; the cancel
message aborts whatever worker operation is in flight, has no effect when
nothing is in flight, and the only messages that start a download are the
ones sent by `updateCache()` and `commitChanges()`. -/
theorem cancelDownload_forwarded (s : BackendState) :
    applyOp s Op.cancelDownloadOp = (s, [WorkerMsg.cancel]) ∧
    (∀ w, workerHandle w WorkerMsg.cancel = Option.none) ∧
    workerHandle Option.none WorkerMsg.cancel = Option.none ∧
    (∀ m, (workerHandle Option.none m).isSome = startsDownload m) ∧
    applyOp s Op.updateCacheOp = (s, [WorkerMsg.updateCacheMsg]) ∧
    applyOp s Op.commitChangesOp = (s, [WorkerMsg.commitPkgs s.marks]) := by
  refine ⟨rfl, ?_, rfl, ?_, rfl, rfl⟩
  · intro w; cases w <;> rfl
  · intro m; cases m <;> rfl

/-- C9: the unfiltered package count equals the length of the
available-package listing: both range over exactly the packages whose
version is not 0. -/
theorem packageCount_eq_availablePackages_length (s : BackendState) :
    packageCount s = (availablePackages s).length := by
  rw [packageCount, packageCountLoop_eq, availablePackages, Nat.zero_add]

/-- C10: a package reporting a state change through the
`packageChanged(Package*)` slot makes the Backend emit the
`packageChanged()` signal, a notification that is not one of the
worker-originated signals re-emitted from worker notifications. -/
theorem packageChanged_emitted (s : BackendState) (p : Package) :
    (packageChangedSlot s p).2 = [Signal.packageChanged] ∧
    isWorkerOriginated Signal.packageChanged = false ∧
    (∀ n : WorkerNotification,
      isWorkerOriginated (forwardSignal n) = true) := by
  refine ⟨rfl, rfl, ?_⟩
  intro n
  cases n <;> rfl

end LibQApt
